import Mathlib

/-!
Shallow embedding of `simple_trading_engine` (src/src/lib.rs).

Rust `u128` values are modelled as `Nat` together with the bound
`U128_MAX`; the `checked_add` / `checked_sub` / `checked_mul` methods are
modelled explicitly, and the one unchecked operation in the source
(`self.quantity += quantity` inside `Order::fulfill`) is modelled as
wrapping addition modulo `2^128`.

Rust `HashMap` values are modelled as association lists (`Assoc`), with
`Assoc.lookupA` for `get` and `Assoc.insertA` for `insert` /
`entry(..).or_insert(..)` followed by a write.  The claims under study
only observe maps through lookups, so the representation choice is
inessential; insertion overwrites an existing key in place, matching
`HashMap::insert`'s last-write-wins behaviour.

Methods taking `&mut self` are modelled as state-passing functions that
return the `Result` together with the updated state; the returned state
reflects exactly the writes the Rust code performs on each path,
including the `entry(..).or_insert(..)` insertions that
`TradingEngine::add_balance` performs before its overflow check.

Trait objects (`Box<dyn Order>`, `Box<dyn OrderRequest>`, the engine's
`Box<dyn Market>`) are modelled as sum types over the two concrete
implementations present in the source; `downcast_ref` becomes a match on
the tag.
-/

namespace SimpleTradingEngine

def U128_MAX : Nat := 2 ^ 128 - 1

def checked_add (a b : Nat) : Option Nat :=
  if a + b ≤ U128_MAX then some (a + b) else none

def checked_sub (a b : Nat) : Option Nat :=
  if b ≤ a then some (a - b) else none

def checked_mul (a b : Nat) : Option Nat :=
  if a * b ≤ U128_MAX then some (a * b) else none

/-- Association-list model of `HashMap α β`. -/
abbrev Assoc (α β : Type) : Type := List (α × β)

def Assoc.lookupA {α β : Type} [DecidableEq α] : Assoc α β → α → Option β
  | [], _ => none
  | (k, v) :: rest, a => if k = a then some v else Assoc.lookupA rest a

def Assoc.insertA {α β : Type} [DecidableEq α] : Assoc α β → α → β → Assoc α β
  | [], a, b => [(a, b)]
  | (k, v) :: rest, a, b =>
      if k = a then (a, b) :: rest else (k, v) :: Assoc.insertA rest a b

/-- The `[String; 2]` coin-pair key; `.1` is the base coin, `.2` the quote coin
(Rust index `[1]`). -/
abbrev CoinPair : Type := String × String

inductive OptionSide where
  | PUT
  | CALL
deriving DecidableEq, Repr

inductive FuturesSide where
  | BID
  | ASK
deriving DecidableEq, Repr

structure OptionsOrder where
  coins : CoinPair
  strike_price : Nat
  premium : Nat
  writer : String
  buyer : String
  side : OptionSide
  expiry : Nat
  quantity : Nat
deriving DecidableEq, Repr

structure FuturesOrder where
  coins : CoinPair
  price : Nat
  writer : String
  buyer : String
  side : FuturesSide
  expiry : Nat
  quantity : Nat
deriving DecidableEq, Repr

/-- The `Box<dyn Order>` trait object: one of the two concrete order types. -/
inductive DynOrder where
  | options (o : OptionsOrder)
  | futures (o : FuturesOrder)
deriving DecidableEq, Repr

def DynOrder.get_price : DynOrder → Nat
  | .options o => o.premium
  | .futures o => o.price

def DynOrder.get_coins : DynOrder → CoinPair
  | .options o => o.coins
  | .futures o => o.coins

def DynOrder.get_writer : DynOrder → String
  | .options o => o.writer
  | .futures o => o.writer

/-- `Order::fulfill`: sets the buyer and performs the unchecked
`self.quantity += quantity` (wrapping `u128` addition). -/
def DynOrder.fulfill (ord : DynOrder) (buyer : String) (quantity : Nat) : DynOrder :=
  match ord with
  | .options o => .options { o with buyer := buyer, quantity := (o.quantity + quantity) % 2 ^ 128 }
  | .futures o => .futures { o with buyer := buyer, quantity := (o.quantity + quantity) % 2 ^ 128 }

/-- Observer for the buyer (counter-party) field of either order variant. -/
def DynOrder.buyerOf : DynOrder → String
  | .options o => o.buyer
  | .futures o => o.buyer

/-- Observer for the cumulative filled quantity of either order variant. -/
def DynOrder.filledOf : DynOrder → Nat
  | .options o => o.quantity
  | .futures o => o.quantity

structure OptionsOrderRequest where
  user : String
  coins : CoinPair
  side : OptionSide
  strike_price : Nat
  premium : Nat
  expiry : Nat
deriving DecidableEq, Repr

structure FuturesOrderRequest where
  user : String
  coins : CoinPair
  side : FuturesSide
  price : Nat
  expiry : Nat
deriving DecidableEq, Repr

/-- The `Box<dyn OrderRequest>` trait object; `as_any().downcast_ref::<T>()`
succeeds exactly when the tag matches `T`. -/
inductive DynOrderRequest where
  | options (r : OptionsOrderRequest)
  | futures (r : FuturesOrderRequest)
deriving DecidableEq, Repr

structure Pair (T : Type) where
  coins : CoinPair
  price : Nat
  orders : List T
deriving DecidableEq, Repr

def Pair.push_order {T : Type} (p : Pair T) (ord : T) : Pair T :=
  { p with orders := p.orders ++ [ord] }

structure OptionsMarket where
  all_pairs : List (Pair OptionsOrder)
  pairs_map : Assoc CoinPair (Pair OptionsOrder)
deriving DecidableEq, Repr

def OptionsMarket.default : OptionsMarket := ⟨[], []⟩

def OptionsMarket.add_pair (m : OptionsMarket) (coins : CoinPair) (initial_price : Nat) :
    OptionsMarket :=
  let pair : Pair OptionsOrder := ⟨coins, initial_price, []⟩
  { all_pairs := m.all_pairs ++ [pair]
    pairs_map := m.pairs_map.insertA coins pair }

def OptionsMarket.create_order (m : OptionsMarket) (order_request : DynOrderRequest) :
    Except String Unit × OptionsMarket :=
  match order_request with
  | .options request =>
      match m.pairs_map.lookupA request.coins with
      | none => (.error ("Pair not found"), m)
      | some pair =>
          let newOrder : OptionsOrder :=
            { coins := request.coins
              strike_price := request.strike_price
              premium := request.premium
              writer := request.user
              buyer := ""
              side := request.side
              expiry := request.expiry
              quantity := 0 }
          (.ok (),
            { m with pairs_map := m.pairs_map.insertA request.coins (pair.push_order newOrder) })
  | .futures _ => (.error ("Invalid order request type"), m)

/-- `OptionsMarket::get_orders` as written in the source: a stub that always
returns `None` ("This needs to be implemented properly"). -/
def OptionsMarket.get_orders (_m : OptionsMarket) (_coins : CoinPair) :
    Option (List DynOrder) :=
  none

structure FuturesMarket where
  all_pairs : List (Pair FuturesOrder)
  pairs_map : Assoc CoinPair (Pair FuturesOrder)
deriving DecidableEq, Repr

def FuturesMarket.default : FuturesMarket := ⟨[], []⟩

def FuturesMarket.add_pair (m : FuturesMarket) (coins : CoinPair) (initial_price : Nat) :
    FuturesMarket :=
  let pair : Pair FuturesOrder := ⟨coins, initial_price, []⟩
  { all_pairs := m.all_pairs ++ [pair]
    pairs_map := m.pairs_map.insertA coins pair }

def FuturesMarket.create_order (m : FuturesMarket) (order_request : DynOrderRequest) :
    Except String Unit × FuturesMarket :=
  match order_request with
  | .futures request =>
      match m.pairs_map.lookupA request.coins with
      | none => (.error ("Pair not found"), m)
      | some pair =>
          let newOrder : FuturesOrder :=
            { coins := request.coins
              price := request.price
              writer := request.user
              buyer := ""
              side := request.side
              expiry := request.expiry
              quantity := 0 }
          (.ok (),
            { m with pairs_map := m.pairs_map.insertA request.coins (pair.push_order newOrder) })
  | .options _ => (.error ("Invalid order request type"), m)

/-- `FuturesMarket::get_orders` as written in the source: a stub that always
returns `None` ("This needs to be implemented properly"). -/
def FuturesMarket.get_orders (_m : FuturesMarket) (_coins : CoinPair) :
    Option (List DynOrder) :=
  none

inductive MarketKind where
  | OPTIONS
  | FUTURES
deriving DecidableEq, Repr

/-- The engine's `Box<dyn Market>` field. -/
inductive DynMarket where
  | options (m : OptionsMarket)
  | futures (m : FuturesMarket)
deriving DecidableEq, Repr

/-- Balance ledger: user → coin → amount. -/
abbrev Balances : Type := Assoc String (Assoc String Nat)

structure TradingEngine where
  market : DynMarket
  balances : Balances
deriving DecidableEq, Repr

namespace TradingEngine

def new (params : MarketKind) : TradingEngine :=
  match params with
  | .FUTURES => { market := .futures FuturesMarket.default, balances := [] }
  | .OPTIONS => { market := .options OptionsMarket.default, balances := [] }

def add_pair (e : TradingEngine) (coins : CoinPair) (initial_price : Nat) :
    Except String Unit × TradingEngine :=
  match e.market with
  | .options m => (.ok (), { e with market := .options (m.add_pair coins initial_price) })
  | .futures m => (.ok (), { e with market := .futures (m.add_pair coins initial_price) })

/-- `TradingEngine::add_balance`.  The two `entry(..).or_insert(..)` calls
create the user/coin entries (defaulting to an empty map and `0`) before the
overflow check, so those insertions are performed on the error path too,
exactly as in the Rust code. -/
def add_balance (e : TradingEngine) (user coin : String) (amount : Nat) :
    Except String Unit × TradingEngine :=
  let user_balances := (e.balances.lookupA user).getD []
  let balance := (user_balances.lookupA coin).getD 0
  match checked_add balance amount with
  | none =>
      (.error ("Balance overflow"),
        { e with balances := e.balances.insertA user (user_balances.insertA coin balance) })
  | some s =>
      (.ok (),
        { e with balances := e.balances.insertA user (user_balances.insertA coin s) })

/-- `TradingEngine::subtract_balance`.  Every failing path returns before any
write, so the state is returned untouched there. -/
def subtract_balance (e : TradingEngine) (user coin : String) (amount : Nat) :
    Except String Unit × TradingEngine :=
  match e.balances.lookupA user with
  | none => (.error ("User not found"), e)
  | some user_balances =>
      match user_balances.lookupA coin with
      | none => (.error ("Coin not found"), e)
      | some balance =>
          match checked_sub balance amount with
          | none => (.error ("Insufficient balance"), e)
          | some d =>
              (.ok (),
                { e with balances := e.balances.insertA user (user_balances.insertA coin d) })

def get_orders (e : TradingEngine) (coins : CoinPair) :
    Except String (List DynOrder) :=
  match (match e.market with
         | .options m => m.get_orders coins
         | .futures m => m.get_orders coins) with
  | none => .error ("Pair not found")
  | some v => .ok v

/-- `TradingEngine::fulfill_order`: computes the payment with `checked_mul`,
debits the fulfilling user, credits the writer, then mutates the order.
The order is `&mut`, so the (possibly) updated order is returned alongside
the engine. -/
def fulfill_order (e : TradingEngine) (order : DynOrder) (user : String)
    (quantity : Nat) : Except String Unit × TradingEngine × DynOrder :=
  match checked_mul quantity order.get_price with
  | none => (.error ("Overflow in payment calculation"), e, order)
  | some payment_amount =>
      let payment_coin := order.get_coins.2
      match e.subtract_balance user payment_coin payment_amount with
      | (.error msg, e1) => (.error msg, e1, order)
      | (.ok _, e1) =>
          match e1.add_balance order.get_writer payment_coin payment_amount with
          | (.error msg, e2) => (.error msg, e2, order)
          | (.ok _, e2) => (.ok (), e2, order.fulfill user quantity)

end TradingEngine

/-- The balance the ledger records for `user` in `coin`, if any. -/
def getBalance (e : TradingEngine) (user coin : String) : Option Nat :=
  (e.balances.lookupA user).bind fun ub => ub.lookupA coin

/-- Options-market states reachable from the default (empty) market by any
sequence of `add_pair` and `create_order` calls. -/
inductive OptionsMarket.Reachable : OptionsMarket → Prop where
  | init : OptionsMarket.Reachable OptionsMarket.default
  | add_pair (m : OptionsMarket) (c : CoinPair) (p : Nat) :
      OptionsMarket.Reachable m → OptionsMarket.Reachable (m.add_pair c p)
  | create_order (m : OptionsMarket) (r : DynOrderRequest) :
      OptionsMarket.Reachable m → OptionsMarket.Reachable (m.create_order r).2

/-- Futures-market states reachable from the default (empty) market by any
sequence of `add_pair` and `create_order` calls. -/
inductive FuturesMarket.Reachable : FuturesMarket → Prop where
  | init : FuturesMarket.Reachable FuturesMarket.default
  | add_pair (m : FuturesMarket) (c : CoinPair) (p : Nat) :
      FuturesMarket.Reachable m → FuturesMarket.Reachable (m.add_pair c p)
  | create_order (m : FuturesMarket) (r : DynOrderRequest) :
      FuturesMarket.Reachable m → FuturesMarket.Reachable (m.create_order r).2

/-- Concrete scenario: an options market with pair (BTC, USD) registered. -/
def c1_market : OptionsMarket :=
  OptionsMarket.default.add_pair (("BTC"), ("USD")) 50000

def c1_request : DynOrderRequest :=
  .options
    { user := "Dave", coins := (("BTC"), ("USD")), side := .CALL
      strike_price := 3500, premium := 100, expiry := 1630000000 }

/-- The market of `c1_market` after `c1_request` has been admitted. -/
def c1_after : OptionsMarket := (c1_market.create_order c1_request).2

/-- A resting futures order written by B, quote coin USD, price term 1. -/
def c2_order : DynOrder :=
  .futures
    { coins := (("X"), ("USD")), price := 1, writer := "B", buyer := ""
      side := .ASK, expiry := 0, quantity := 0 }

/-- Ledger where taker A holds 10 USD and writer B holds the maximum
representable USD balance, so crediting B overflows. -/
def c2_engine : TradingEngine :=
  { market := .options OptionsMarket.default
    balances := [(("A"), [(("USD"), 10)]), (("B"), [(("USD"), U128_MAX)])] }

/-- A resting futures order whose writer is A, quote coin USD, price term 1. -/
def c3_order : DynOrder :=
  .futures
    { coins := (("X"), ("USD")), price := 1, writer := "A", buyer := ""
      side := .ASK, expiry := 0, quantity := 0 }

/-- Ledger where A holds 100 USD; A will fulfill A's own order. -/
def c3_engine : TradingEngine :=
  { market := .options OptionsMarket.default, balances := [(("A"), [(("USD"), 100)])] }

/-- An options order with premium 0 whose filled quantity already sits at the
maximum representable value, so the unchecked `+=` wraps on the next fill. -/
def c10_order : DynOrder :=
  .options
    { coins := (("X"), ("U")), strike_price := 0, premium := 0, writer := "A"
      buyer := "", side := .CALL, expiry := 0, quantity := U128_MAX }

def c10_engine : TradingEngine :=
  { market := .options OptionsMarket.default, balances := [(("A"), [(("U"), 0)])] }

/-- A one-user ledger: A holds 7 of coin U. -/
def c7_engine : TradingEngine :=
  { market := .options OptionsMarket.default, balances := [(("A"), [(("U"), 7)])] }

/-- Ledger with two distinct parties: taker A holds 100 USD and writer B
holds 5 USD. -/
def c3w_engine : TradingEngine :=
  { market := .options OptionsMarket.default
    balances := [(("A"), [(("USD"), 100)]), (("B"), [(("USD"), 5)])] }

/-- Abbreviation for the ledger write `add_balance` performs on its success
path: the user's coin map (defaulting to empty) gets the coin entry set to
`x`, and the updated map is re-inserted for the user. -/
def TradingEngine.writeBalance (e : TradingEngine) (u c : String) (x : Nat) : TradingEngine :=
  { e with balances := e.balances.insertA u (((e.balances.lookupA u).getD []).insertA c x) }

/-! Helper lemmas about the association-list map operations. -/

theorem Assoc.lookupA_insertA_self {α β : Type} [DecidableEq α] (m : Assoc α β)
    (k : α) (v : β) : (m.insertA k v).lookupA k = some v := by
  induction m with
  | nil => simp [Assoc.insertA, Assoc.lookupA]
  | cons hd tl ih =>
      obtain ⟨k0, v0⟩ := hd
      by_cases h : k0 = k
      · subst h
        simp [Assoc.insertA, Assoc.lookupA]
      · simp [Assoc.insertA, Assoc.lookupA, h, ih]

theorem Assoc.lookupA_insertA_of_ne {α β : Type} [DecidableEq α] (m : Assoc α β)
    (k a : α) (v : β) (h : k ≠ a) : (m.insertA k v).lookupA a = m.lookupA a := by
  induction m with
  | nil => simp [Assoc.insertA, Assoc.lookupA, h]
  | cons hd tl ih =>
      obtain ⟨k0, v0⟩ := hd
      by_cases h0 : k0 = k
      · subst h0
        simp [Assoc.insertA, Assoc.lookupA, h]
      · simp [Assoc.insertA, Assoc.lookupA, h0, ih]

theorem Assoc.insertA_of_lookupA {α β : Type} [DecidableEq α] (m : Assoc α β)
    (k : α) (v : β) (h : m.lookupA k = some v) : m.insertA k v = m := by
  induction m with
  | nil => simp [Assoc.lookupA] at h
  | cons hd tl ih =>
      obtain ⟨k0, v0⟩ := hd
      by_cases h0 : k0 = k
      · subst h0
        simp [Assoc.lookupA] at h
        simp [Assoc.insertA, h]
      · simp [Assoc.lookupA, h0] at h
        simp [Assoc.insertA, h0, ih h]

theorem Assoc.lookupA_insertA_cases {α β : Type} [DecidableEq α] (m : Assoc α β)
    (k a : α) (v w : β) (h : (m.insertA k v).lookupA a = some w) :
    (a = k ∧ w = v) ∨ m.lookupA a = some w := by
  by_cases hak : a = k
  · subst hak
    rw [Assoc.lookupA_insertA_self] at h
    exact Or.inl ⟨rfl, (Option.some.inj h).symm⟩
  · right
    rw [Assoc.lookupA_insertA_of_ne m k a v (fun hk => hak hk.symm)] at h
    exact h

theorem checked_mul_some (a b p : Nat) (h : checked_mul a b = some p) :
    p = a * b ∧ p ≤ U128_MAX := by
  unfold checked_mul at h
  by_cases hle : a * b ≤ U128_MAX
  · simp [hle] at h
    exact ⟨h.symm, h ▸ hle⟩
  · simp [hle] at h

/-! Helper lemmas about the state each engine operation leaves behind. -/

theorem TradingEngine.subtract_balance_error_frame (e : TradingEngine)
    (u c : String) (a : Nat) (msg : String)
    (h : (e.subtract_balance u c a).1 = .error msg) :
    (e.subtract_balance u c a).2 = e := by
  rcases hu : e.balances.lookupA u with _ | ub
  · simp [TradingEngine.subtract_balance, hu]
  · rcases hc : ub.lookupA c with _ | bal
    · simp [TradingEngine.subtract_balance, hu, hc]
    · by_cases hle : a ≤ bal
      · simp [TradingEngine.subtract_balance, hu, hc, checked_sub, hle] at h
      · simp [TradingEngine.subtract_balance, hu, hc, checked_sub, hle]

theorem TradingEngine.subtract_balance_ok_decomp (e : TradingEngine)
    (u c : String) (a : Nat) (h : (e.subtract_balance u c a).1 = .ok ()) :
    ∃ ub bal, e.balances.lookupA u = some ub ∧ ub.lookupA c = some bal ∧ a ≤ bal ∧
      (e.subtract_balance u c a).2 =
        { e with balances := e.balances.insertA u (ub.insertA c (bal - a)) } := by
  rcases hu : e.balances.lookupA u with _ | ub
  · simp [TradingEngine.subtract_balance, hu] at h
  · rcases hc : ub.lookupA c with _ | bal
    · simp [TradingEngine.subtract_balance, hu, hc] at h
    · by_cases hle : a ≤ bal
      · refine ⟨ub, bal, rfl, hc, hle, ?_⟩
        simp [TradingEngine.subtract_balance, hu, hc, checked_sub, hle]
      · simp [TradingEngine.subtract_balance, hu, hc, checked_sub, hle] at h

theorem TradingEngine.add_balance_ok_decomp (e : TradingEngine)
    (u c : String) (a : Nat) (h : (e.add_balance u c a).1 = .ok ()) :
    (((e.balances.lookupA u).getD []).lookupA c).getD 0 + a ≤ U128_MAX ∧
    (e.add_balance u c a).2 =
      e.writeBalance u c ((((e.balances.lookupA u).getD []).lookupA c).getD 0 + a) := by
  by_cases hle : (((e.balances.lookupA u).getD []).lookupA c).getD 0 + a ≤ U128_MAX
  · exact ⟨hle, by simp [TradingEngine.add_balance, TradingEngine.writeBalance, checked_add, hle]⟩
  · simp [TradingEngine.add_balance, checked_add, hle] at h

theorem TradingEngine.add_balance_error_frame (e : TradingEngine)
    (u c : String) (a : Nat) (ha : a ≤ U128_MAX) (msg : String)
    (h : (e.add_balance u c a).1 = .error msg) :
    msg = "Balance overflow" ∧
    U128_MAX < (getBalance e u c).getD 0 + a ∧
    (e.add_balance u c a).2 = e := by
  rcases hu : e.balances.lookupA u with _ | ub
  · exfalso
    simp [TradingEngine.add_balance, hu, checked_add, Assoc.lookupA, ha] at h
  · rcases hc : ub.lookupA c with _ | bal
    · exfalso
      simp [TradingEngine.add_balance, hu, hc, checked_add, ha] at h
    · by_cases hle : bal + a ≤ U128_MAX
      · exfalso
        simp [TradingEngine.add_balance, hu, hc, checked_add, hle] at h
      · have hmsg : msg = "Balance overflow" := by
          simp [TradingEngine.add_balance, hu, hc, checked_add, hle] at h
          exact h.symm
        refine ⟨hmsg, ?_, ?_⟩
        · simp [getBalance, hu, hc]
          omega
        · have hub : ub.insertA c bal = ub := Assoc.insertA_of_lookupA ub c bal hc
          have hb2 : e.balances.insertA u ub = e.balances :=
            Assoc.insertA_of_lookupA e.balances u ub hu
          simp [TradingEngine.add_balance, hu, hc, checked_add, hle, hub, hb2]

theorem TradingEngine.fulfill_order_ok_decomp (e : TradingEngine) (ord : DynOrder)
    (user : String) (q : Nat) (h : (e.fulfill_order ord user q).1 = .ok ()) :
    ∃ p, checked_mul q ord.get_price = some p ∧
      (e.subtract_balance user ord.get_coins.2 p).1 = .ok () ∧
      ((e.subtract_balance user ord.get_coins.2 p).2.add_balance
          ord.get_writer ord.get_coins.2 p).1 = .ok () ∧
      (e.fulfill_order ord user q).2.1 =
        ((e.subtract_balance user ord.get_coins.2 p).2.add_balance
          ord.get_writer ord.get_coins.2 p).2 ∧
      (e.fulfill_order ord user q).2.2 = ord.fulfill user q := by
  rcases hmul : checked_mul q ord.get_price with _ | p
  · simp [TradingEngine.fulfill_order, hmul] at h
  · refine ⟨p, rfl, ?_⟩
    rcases hsub : e.subtract_balance user ord.get_coins.2 p with ⟨r1, e1⟩
    rcases r1 with msg | ⟨⟩
    · simp [TradingEngine.fulfill_order, hmul, hsub] at h
    · rcases hadd : e1.add_balance ord.get_writer ord.get_coins.2 p with ⟨r2, e2⟩
      rcases r2 with msg | ⟨⟩
      · simp [TradingEngine.fulfill_order, hmul, hsub, hadd] at h
      · refine ⟨rfl, ?_, ?_, ?_⟩
        · simp [hadd]
        · simp [TradingEngine.fulfill_order, hmul, hsub, hadd]
        · simp [TradingEngine.fulfill_order, hmul, hsub, hadd]

theorem getBalance_getD (e : TradingEngine) (u c : String) :
    (getBalance e u c).getD 0 = (((e.balances.lookupA u).getD []).lookupA c).getD 0 := by
  rcases h : e.balances.lookupA u with _ | ub <;> simp [getBalance, h, Assoc.lookupA]

theorem getBalance_writeBalance (e : TradingEngine) (u c : String) (x : Nat) :
    getBalance (e.writeBalance u c x) u c = some x := by
  simp [getBalance, TradingEngine.writeBalance, Assoc.lookupA_insertA_self]

theorem getBalance_writeBalance_of_ne (e : TradingEngine) (u c : String) (x : Nat)
    (u2 c2 : String) (h : u ≠ u2) :
    getBalance (e.writeBalance u c x) u2 c2 = getBalance e u2 c2 := by
  simp [getBalance, TradingEngine.writeBalance, Assoc.lookupA_insertA_of_ne _ u u2 _ h]

/-! Claim theorems. -/

/-- C1: the claim fails on the code because `get_orders` is a stub.  Even
after the pair (BTC, USD) is registered and an order is successfully created
for it — the authoritative pair map provably holds that order — the
market-level `get_orders` returns `none` for every market and every key, so
the engine-level `get_orders` reports "Pair not found" for a registered pair.
This contradicts the repository's own test
`test_create_and_fulfill_futures_order`, which panics when `get_orders`
returns `None` after a successful `create_order`, and the source's own
comment "This needs to be implemented properly". -/
theorem C1_get_orders_is_stub :
    (c1_market.create_order c1_request).1 = .ok () ∧
    c1_after.pairs_map.lookupA (("BTC"), ("USD")) =
      some ⟨(("BTC"), ("USD")), 50000,
        [⟨(("BTC"), ("USD")), 3500, 100, ("Dave"), (""), .CALL, 1630000000, 0⟩]⟩ ∧
    c1_after.get_orders (("BTC"), ("USD")) = none ∧
    ({ market := .options c1_after, balances := [] } : TradingEngine).get_orders
        (("BTC"), ("USD")) = .error ("Pair not found") ∧
    (∀ (m : OptionsMarket) (c : CoinPair), m.get_orders c = none) ∧
    (∀ (m : FuturesMarket) (c : CoinPair), m.get_orders c = none) :=
  ⟨rfl, by decide, rfl, rfl, fun _ _ => rfl, fun _ _ => rfl⟩

/-- C5: a futures-shaped request submitted to an options market, or an
options-shaped request submitted to a futures market, fails with the
invalid-request-kind error and leaves the market — hence every pair's order
sequence — unchanged. -/
theorem C5_kind_mismatch_rejected (om : OptionsMarket) (fr : FuturesOrderRequest)
    (fm : FuturesMarket) (orq : OptionsOrderRequest) :
    om.create_order (.futures fr) = (.error ("Invalid order request type"), om) ∧
    fm.create_order (.options orq) = (.error ("Invalid order request type"), fm) :=
  ⟨rfl, rfl⟩

/-- C6: on a matching-kind request, `create_order` fails with "Pair not
found" and leaves the market unchanged when the request's coin pair is
unregistered; otherwise it succeeds and appends exactly one new order —
writer equal to the request's submitter, counter-party empty, filled
quantity zero, and the price/side/expiry terms copied verbatim — to that
pair's order sequence (for both market kinds). -/
theorem C6_create_order_matching_kind (om : OptionsMarket) (fm : FuturesMarket)
    (orq : OptionsOrderRequest) (frq : FuturesOrderRequest) :
    (om.pairs_map.lookupA orq.coins = none →
      om.create_order (.options orq) = (.error ("Pair not found"), om)) ∧
    (∀ pr, om.pairs_map.lookupA orq.coins = some pr →
      om.create_order (.options orq) =
        (.ok (), { om with pairs_map := om.pairs_map.insertA orq.coins (pr.push_order ⟨orq.coins, orq.strike_price, orq.premium, orq.user, "", orq.side, orq.expiry, 0⟩) })) ∧
    (fm.pairs_map.lookupA frq.coins = none →
      fm.create_order (.futures frq) = (.error ("Pair not found"), fm)) ∧
    (∀ pr, fm.pairs_map.lookupA frq.coins = some pr →
      fm.create_order (.futures frq) =
        (.ok (), { fm with pairs_map := fm.pairs_map.insertA frq.coins (pr.push_order ⟨frq.coins, frq.price, frq.user, "", frq.side, frq.expiry, 0⟩) })) := by
  refine ⟨fun h => ?_, fun pr h => ?_, fun h => ?_, fun pr h => ?_⟩
  · simp [OptionsMarket.create_order, h]
  · simp [OptionsMarket.create_order, h, Pair.push_order]
  · simp [FuturesMarket.create_order, h]
  · simp [FuturesMarket.create_order, h, Pair.push_order]

/-- C6 witness: the theorem applied to the empty market of each kind (pair
absent) and to a concrete one-pair market of each kind (pair present). -/
theorem C6_create_order_matching_kind_witness :
    OptionsMarket.default.create_order (.options ⟨("W"), (("B"), ("U")), .CALL, 5, 2, 9⟩) =
      (.error ("Pair not found"), OptionsMarket.default) ∧
    (OptionsMarket.default.add_pair (("B"), ("U")) 7).create_order (.options ⟨("W"), (("B"), ("U")), .CALL, 5, 2, 9⟩) =
      (.ok (), { OptionsMarket.default.add_pair (("B"), ("U")) 7 with pairs_map := (OptionsMarket.default.add_pair (("B"), ("U")) 7).pairs_map.insertA (("B"), ("U")) ((⟨(("B"), ("U")), 7, []⟩ : Pair OptionsOrder).push_order ⟨(("B"), ("U")), 5, 2, ("W"), "", .CALL, 9, 0⟩) }) ∧
    FuturesMarket.default.create_order (.futures ⟨("W"), (("B"), ("U")), .BID, 5, 9⟩) =
      (.error ("Pair not found"), FuturesMarket.default) ∧
    (FuturesMarket.default.add_pair (("B"), ("U")) 7).create_order (.futures ⟨("W"), (("B"), ("U")), .BID, 5, 9⟩) =
      (.ok (), { FuturesMarket.default.add_pair (("B"), ("U")) 7 with pairs_map := (FuturesMarket.default.add_pair (("B"), ("U")) 7).pairs_map.insertA (("B"), ("U")) ((⟨(("B"), ("U")), 7, []⟩ : Pair FuturesOrder).push_order ⟨(("B"), ("U")), 5, ("W"), "", .BID, 9, 0⟩) }) :=
  ⟨(C6_create_order_matching_kind OptionsMarket.default FuturesMarket.default
      ⟨("W"), (("B"), ("U")), .CALL, 5, 2, 9⟩ ⟨("W"), (("B"), ("U")), .BID, 5, 9⟩).1 rfl,
   (C6_create_order_matching_kind (OptionsMarket.default.add_pair (("B"), ("U")) 7)
      FuturesMarket.default ⟨("W"), (("B"), ("U")), .CALL, 5, 2, 9⟩
      ⟨("W"), (("B"), ("U")), .BID, 5, 9⟩).2.1 ⟨(("B"), ("U")), 7, []⟩ (by decide),
   (C6_create_order_matching_kind OptionsMarket.default FuturesMarket.default
      ⟨("W"), (("B"), ("U")), .CALL, 5, 2, 9⟩ ⟨("W"), (("B"), ("U")), .BID, 5, 9⟩).2.2.1 rfl,
   (C6_create_order_matching_kind OptionsMarket.default
      (FuturesMarket.default.add_pair (("B"), ("U")) 7) ⟨("W"), (("B"), ("U")), .CALL, 5, 2, 9⟩
      ⟨("W"), (("B"), ("U")), .BID, 5, 9⟩).2.2.2 ⟨(("B"), ("U")), 7, []⟩ (by decide)⟩

/-- C7: `subtract_balance` fails with "User not found" when the user has no
ledger entry, with "Coin not found" when the user exists but lacks the coin,
and with "Insufficient balance" when the amount exceeds the stored balance —
in each failing case returning the engine unchanged, so no ledger entry is
created by a failed subtraction — and on success it decrements the stored
balance in place by the amount. -/
theorem C7_subtract_balance_spec (e : TradingEngine) (user coin : String) (amount : Nat) :
    (e.balances.lookupA user = none →
      e.subtract_balance user coin amount = (.error ("User not found"), e)) ∧
    (∀ ub, e.balances.lookupA user = some ub → ub.lookupA coin = none →
      e.subtract_balance user coin amount = (.error ("Coin not found"), e)) ∧
    (∀ ub bal, e.balances.lookupA user = some ub → ub.lookupA coin = some bal →
      bal < amount →
      e.subtract_balance user coin amount = (.error ("Insufficient balance"), e)) ∧
    (∀ ub bal, e.balances.lookupA user = some ub → ub.lookupA coin = some bal →
      amount ≤ bal →
      (e.subtract_balance user coin amount).1 = .ok () ∧
      getBalance (e.subtract_balance user coin amount).2 user coin = some (bal - amount)) := by
  refine ⟨fun h => ?_, fun ub h1 h2 => ?_, fun ub bal h1 h2 hlt => ?_,
    fun ub bal h1 h2 hle => ⟨?_, ?_⟩⟩
  · simp [TradingEngine.subtract_balance, h]
  · simp [TradingEngine.subtract_balance, h1, h2]
  · simp [TradingEngine.subtract_balance, h1, h2, checked_sub, Nat.not_le.mpr hlt]
  · simp [TradingEngine.subtract_balance, h1, h2, checked_sub, hle]
  · simp [TradingEngine.subtract_balance, h1, h2, checked_sub, hle, getBalance,
      Assoc.lookupA_insertA_self]

/-- C7 witness: the four cases of the theorem at a concrete one-user ledger. -/
theorem C7_subtract_balance_spec_witness :
    c7_engine.subtract_balance ("Z") ("U") 1 = (.error ("User not found"), c7_engine) ∧
    c7_engine.subtract_balance ("A") ("V") 1 = (.error ("Coin not found"), c7_engine) ∧
    c7_engine.subtract_balance ("A") ("U") 9 = (.error ("Insufficient balance"), c7_engine) ∧
    ((c7_engine.subtract_balance ("A") ("U") 5).1 = .ok () ∧
      getBalance (c7_engine.subtract_balance ("A") ("U") 5).2 ("A") ("U") = some (7 - 5)) :=
  ⟨(C7_subtract_balance_spec c7_engine ("Z") ("U") 1).1 rfl,
   (C7_subtract_balance_spec c7_engine ("A") ("V") 1).2.1 [(("U"), 7)] rfl rfl,
   (C7_subtract_balance_spec c7_engine ("A") ("U") 9).2.2.1 [(("U"), 7)] 7 rfl rfl (by decide),
   (C7_subtract_balance_spec c7_engine ("A") ("U") 5).2.2.2 [(("U"), 7)] 7 rfl rfl (by decide)⟩

/-- C8: `add_balance` creates user and coin entries defaulting to zero on
first use and adds the amount: on success the stored balance becomes the
previous balance (zero when absent) plus the amount.  It fails with the
overflow error exactly when that addition would exceed the maximum
representable balance, and on such a failure the ledger holds the same
balances as before the call. -/
theorem C8_add_balance_spec (e : TradingEngine) (user coin : String) (amount : Nat)
    (ha : amount ≤ U128_MAX) :
    ((e.add_balance user coin amount).1 = .error ("Balance overflow") ↔
      U128_MAX < (getBalance e user coin).getD 0 + amount) ∧
    ((e.add_balance user coin amount).1 = .ok () →
      getBalance (e.add_balance user coin amount).2 user coin =
        some ((getBalance e user coin).getD 0 + amount)) ∧
    ((e.add_balance user coin amount).1 = .error ("Balance overflow") →
      (e.add_balance user coin amount).2 = e) := by
  have hg := getBalance_getD e user coin
  refine ⟨⟨fun h =>
      (TradingEngine.add_balance_error_frame e user coin amount ha _ h).2.1,
    fun hlt => ?_⟩, fun h => ?_,
    fun h => (TradingEngine.add_balance_error_frame e user coin amount ha _ h).2.2⟩
  · have hnot :
        ¬ ((((e.balances.lookupA user).getD []).lookupA coin).getD 0 + amount ≤ U128_MAX) := by
      rw [hg] at hlt
      omega
    simp [TradingEngine.add_balance, checked_add, hnot]
  · obtain ⟨hle, hstate⟩ := TradingEngine.add_balance_ok_decomp e user coin amount h
    rw [hstate, getBalance_writeBalance, hg]

/-- C8 witness: a successful addition on a one-user ledger and an
overflowing addition that leaves the ledger as it was. -/
theorem C8_add_balance_spec_witness :
    getBalance (c7_engine.add_balance ("A") ("U") 5).2 ("A") ("U") =
      some ((getBalance c7_engine ("A") ("U")).getD 0 + 5) ∧
    (c2_engine.add_balance ("B") ("USD") 1).2 = c2_engine :=
  ⟨(C8_add_balance_spec c7_engine ("A") ("U") 5 (by decide)).2.1 rfl,
   (C8_add_balance_spec c2_engine ("B") ("USD") 1 (by decide)).2.2 rfl⟩

/-- C2 counterexample: with taker A holding 10 USD and writer B holding the
maximum representable USD balance, fulfilling B's price-1 order for quantity
10 debits A and then fails crediting B with "Balance overflow", leaving A's
balance changed from 10 to 0 — a failing call that changes a party's
balance, contrary to the claim. -/
theorem C2_counterexample :
    (c2_engine.fulfill_order c2_order ("A") 10).1 = .error ("Balance overflow") ∧
    getBalance c2_engine ("A") ("USD") = some 10 ∧
    getBalance (c2_engine.fulfill_order c2_order ("A") 10).2.1 ("A") ("USD") = some 0 :=
  ⟨rfl, by decide, by decide⟩

/-- C2 (amended): every failing `fulfill_order` call leaves the order
unchanged, and leaves the ledger either exactly as it was (payment-overflow
and debit failures) or — only for the "Balance overflow" credit failure —
exactly as the successful debit left it, i.e. with the taker's balance
already reduced by the payment amount. -/
theorem C2_fulfill_error_frame (e : TradingEngine) (ord : DynOrder) (user : String)
    (q : Nat) (msg : String) (h : (e.fulfill_order ord user q).1 = .error msg) :
    (e.fulfill_order ord user q).2.2 = ord ∧
    ((e.fulfill_order ord user q).2.1 = e ∨
      (∃ p, checked_mul q ord.get_price = some p ∧
        (e.subtract_balance user ord.get_coins.2 p).1 = .ok () ∧
        (e.fulfill_order ord user q).2.1 = (e.subtract_balance user ord.get_coins.2 p).2 ∧
        msg = "Balance overflow")) := by
  rcases hmul : checked_mul q ord.get_price with _ | p
  · constructor
    · simp [TradingEngine.fulfill_order, hmul]
    · left
      simp [TradingEngine.fulfill_order, hmul]
  · rcases hsub : e.subtract_balance user ord.get_coins.2 p with ⟨r1, e1⟩
    rcases r1 with m1 | ⟨⟩
    · have he1 : e1 = e := by
        have hfr := TradingEngine.subtract_balance_error_frame e user ord.get_coins.2 p m1
          (by rw [hsub])
        rw [hsub] at hfr
        exact hfr
      constructor
      · simp [TradingEngine.fulfill_order, hmul, hsub]
      · left
        simp [TradingEngine.fulfill_order, hmul, hsub, he1]
    · rcases hadd : e1.add_balance ord.get_writer ord.get_coins.2 p with ⟨r2, e2⟩
      rcases r2 with m2 | ⟨⟩
      · have hp : p ≤ U128_MAX := (checked_mul_some q ord.get_price p hmul).2
        have hframe := TradingEngine.add_balance_error_frame e1 ord.get_writer
          ord.get_coins.2 p hp m2 (by rw [hadd])
        have he2 : e2 = e1 := by
          have h3 := hframe.2.2
          rw [hadd] at h3
          exact h3
        have hmsg2 : msg = m2 := by
          simp [TradingEngine.fulfill_order, hmul, hsub, hadd] at h
          exact h.symm
        constructor
        · simp [TradingEngine.fulfill_order, hmul, hsub, hadd]
        · right
          refine ⟨p, rfl, by rw [hsub], ?_, by rw [hmsg2, hframe.1]⟩
          simp [TradingEngine.fulfill_order, hmul, hsub, hadd, he2]
      · simp [TradingEngine.fulfill_order, hmul, hsub, hadd] at h

/-- C2 witness: the amended theorem applied to a debit failure (unknown user
on an empty ledger), where the engine is returned unchanged. -/
theorem C2_fulfill_error_frame_witness :
    ((TradingEngine.new .OPTIONS).fulfill_order c2_order ("A") 1).2.2 = c2_order ∧
    (((TradingEngine.new .OPTIONS).fulfill_order c2_order ("A") 1).2.1 =
        TradingEngine.new .OPTIONS ∨
      (∃ p, checked_mul 1 c2_order.get_price = some p ∧
        ((TradingEngine.new .OPTIONS).subtract_balance ("A") c2_order.get_coins.2 p).1 =
          .ok () ∧
        ((TradingEngine.new .OPTIONS).fulfill_order c2_order ("A") 1).2.1 =
          ((TradingEngine.new .OPTIONS).subtract_balance ("A") c2_order.get_coins.2 p).2 ∧
        ("User not found") = "Balance overflow")) :=
  C2_fulfill_error_frame (TradingEngine.new .OPTIONS) c2_order ("A") 1 ("User not found") rfl

/-- C4: if the payment computes but the debit of the taker fails, the whole
call returns that debit error with the engine and the order exactly as they
were before the call: the writer is not credited and the order's
counter-party and filled quantity keep their prior values. -/
theorem C4_debit_failure_aborts (e : TradingEngine) (ord : DynOrder) (user : String)
    (q p : Nat) (msg : String) (hmul : checked_mul q ord.get_price = some p)
    (hsub : (e.subtract_balance user ord.get_coins.2 p).1 = .error msg) :
    e.fulfill_order ord user q = (.error msg, e, ord) := by
  have hframe := TradingEngine.subtract_balance_error_frame e user ord.get_coins.2 p msg hsub
  rcases hs : e.subtract_balance user ord.get_coins.2 p with ⟨r1, e1⟩
  rw [hs] at hsub hframe
  rcases r1 with m1 | ⟨⟩
  · simp only [Except.error.injEq] at hsub
    subst hsub
    simp only at hframe
    subst hframe
    simp [TradingEngine.fulfill_order, hmul, hs]
  · simp at hsub

/-- C4 witness: debiting an unknown user on an empty ledger fails and the
whole fulfillment returns unchanged state. -/
theorem C4_debit_failure_aborts_witness :
    (TradingEngine.new .OPTIONS).fulfill_order c2_order ("A") 1 =
      (.error ("User not found"), TradingEngine.new .OPTIONS, c2_order) :=
  C4_debit_failure_aborts (TradingEngine.new .OPTIONS) c2_order ("A") 1 1
    ("User not found") rfl rfl

/-- C3 counterexample: when A fulfills A's own order, the call succeeds and
the payment is 10, yet A's post-balance in the quote coin equals the
pre-balance 100, not pre-balance plus quantity×price, refuting the claim as
stated for calls where the fulfilling user is the order's writer. -/
theorem C3_counterexample :
    (c3_engine.fulfill_order c3_order ("A") 10).1 = .ok () ∧
    c3_order.get_writer = ("A") ∧
    10 * c3_order.get_price = 10 ∧
    getBalance c3_engine ("A") ("USD") = some 100 ∧
    getBalance (c3_engine.fulfill_order c3_order ("A") 10).2.1 ("A") ("USD") = some 100 ∧
    getBalance (c3_engine.fulfill_order c3_order ("A") 10).2.1
        c3_order.get_writer c3_order.get_coins.2 ≠
      some ((getBalance c3_engine c3_order.get_writer c3_order.get_coins.2).getD 0 +
        10 * c3_order.get_price) :=
  ⟨rfl, rfl, rfl, by decide, by decide, by decide⟩

/-- C3 (amended): for every successful `fulfill_order` call in which the
fulfilling user differs from the order's writer, the writer's post-balance
in the quote coin (the second element of the order's coin pair) equals
their pre-balance plus quantity×price, the taker's post-balance equals
their pre-balance minus quantity×price, and the sum of the two parties'
balances in that coin is unchanged. -/
theorem C3_fulfill_balance_transfer (e : TradingEngine) (ord : DynOrder)
    (user : String) (q : Nat) (hw : user ≠ ord.get_writer)
    (h : (e.fulfill_order ord user q).1 = .ok ()) :
    getBalance (e.fulfill_order ord user q).2.1 ord.get_writer ord.get_coins.2 =
      some ((getBalance e ord.get_writer ord.get_coins.2).getD 0 + q * ord.get_price) ∧
    getBalance (e.fulfill_order ord user q).2.1 user ord.get_coins.2 =
      some ((getBalance e user ord.get_coins.2).getD 0 - q * ord.get_price) ∧
    (getBalance (e.fulfill_order ord user q).2.1 ord.get_writer ord.get_coins.2).getD 0 +
      (getBalance (e.fulfill_order ord user q).2.1 user ord.get_coins.2).getD 0 =
    (getBalance e ord.get_writer ord.get_coins.2).getD 0 +
      (getBalance e user ord.get_coins.2).getD 0 := by
  obtain ⟨p, hmul, hsubok, haddok, hstate, horder⟩ :=
    TradingEngine.fulfill_order_ok_decomp e ord user q h
  obtain ⟨hpeq, hple⟩ := checked_mul_some q ord.get_price p hmul
  obtain ⟨ub, bal, hu, hc, hlep, he1⟩ :=
    TradingEngine.subtract_balance_ok_decomp e user ord.get_coins.2 p hsubok
  obtain ⟨hle2, he2⟩ :=
    TradingEngine.add_balance_ok_decomp _ ord.get_writer ord.get_coins.2 p haddok
  have hlookw :
      Assoc.lookupA ((e.subtract_balance user ord.get_coins.2 p).2).balances
        ord.get_writer = Assoc.lookupA e.balances ord.get_writer := by
    rw [he1]
    exact Assoc.lookupA_insertA_of_ne e.balances user ord.get_writer _ hw
  have hchain :
      (((Assoc.lookupA ((e.subtract_balance user ord.get_coins.2 p).2).balances
          ord.get_writer).getD []).lookupA ord.get_coins.2).getD 0 =
        (getBalance e ord.get_writer ord.get_coins.2).getD 0 := by
    rw [hlookw]
    exact (getBalance_getD e ord.get_writer ord.get_coins.2).symm
  have hpost : (e.fulfill_order ord user q).2.1 =
      ((e.subtract_balance user ord.get_coins.2 p).2).writeBalance ord.get_writer
        ord.get_coins.2 ((getBalance e ord.get_writer ord.get_coins.2).getD 0 + p) := by
    rw [hstate, he2, hchain]
  have hgbe : getBalance e user ord.get_coins.2 = some bal := by
    simp [getBalance, hu, hc]
  have hgbe1 : getBalance (e.subtract_balance user ord.get_coins.2 p).2
      user ord.get_coins.2 = some (bal - p) := by
    rw [he1]
    simp [getBalance, Assoc.lookupA_insertA_self]
  have hgb1 : getBalance (e.fulfill_order ord user q).2.1 ord.get_writer
      ord.get_coins.2 =
      some ((getBalance e ord.get_writer ord.get_coins.2).getD 0 + p) := by
    rw [hpost, getBalance_writeBalance]
  have hgb2 : getBalance (e.fulfill_order ord user q).2.1 user ord.get_coins.2 =
      some (bal - p) := by
    rw [hpost, getBalance_writeBalance_of_ne _ _ _ _ _ _ (fun hh => hw hh.symm), hgbe1]
  subst hpeq
  refine ⟨hgb1, ?_, ?_⟩
  · rw [hgb2, hgbe]
    simp
  · rw [hgb1, hgb2, hgbe]
    simp
    omega

/-- C3 witness: taker A (100 USD) fulfills writer B's price-1 order for
quantity 10: B ends with 5+10, A with 100−10, and the USD sum over the two
parties is unchanged. -/
theorem C3_fulfill_balance_transfer_witness :
    getBalance (c3w_engine.fulfill_order c2_order ("A") 10).2.1
        c2_order.get_writer c2_order.get_coins.2 =
      some ((getBalance c3w_engine c2_order.get_writer c2_order.get_coins.2).getD 0 +
        10 * c2_order.get_price) ∧
    getBalance (c3w_engine.fulfill_order c2_order ("A") 10).2.1 ("A")
        c2_order.get_coins.2 =
      some ((getBalance c3w_engine ("A") c2_order.get_coins.2).getD 0 -
        10 * c2_order.get_price) ∧
    (getBalance (c3w_engine.fulfill_order c2_order ("A") 10).2.1
        c2_order.get_writer c2_order.get_coins.2).getD 0 +
      (getBalance (c3w_engine.fulfill_order c2_order ("A") 10).2.1 ("A")
        c2_order.get_coins.2).getD 0 =
    (getBalance c3w_engine c2_order.get_writer c2_order.get_coins.2).getD 0 +
      (getBalance c3w_engine ("A") c2_order.get_coins.2).getD 0 :=
  C3_fulfill_balance_transfer c3w_engine c2_order ("A") 10 (by decide) rfl

/-- C9: in every market state reachable by any sequence of `add_pair` and
`create_order` calls, for either market kind, every key in the pair map is
mapped to a `Pair` whose `coins` field equals that key. -/
theorem C9_pair_map_key_invariant :
    (∀ m : OptionsMarket, OptionsMarket.Reachable m →
      ∀ k pr, m.pairs_map.lookupA k = some pr → pr.coins = k) ∧
    (∀ m : FuturesMarket, FuturesMarket.Reachable m →
      ∀ k pr, m.pairs_map.lookupA k = some pr → pr.coins = k) := by
  constructor
  · intro m hm
    induction hm with
    | init =>
        intro k pr h
        simp [OptionsMarket.default, Assoc.lookupA] at h
    | add_pair m c p hm ih =>
        intro k pr h
        simp only [OptionsMarket.add_pair] at h
        rcases Assoc.lookupA_insertA_cases _ _ _ _ _ h with ⟨hk, hpr⟩ | hold
        · subst hk
          rw [hpr]
        · exact ih k pr hold
    | create_order m r hm ih =>
        intro k pr h
        rcases r with rq | rq
        · rcases hl : m.pairs_map.lookupA rq.coins with _ | pr0
          · simp only [OptionsMarket.create_order, hl] at h
            exact ih k pr h
          · simp only [OptionsMarket.create_order, hl] at h
            rcases Assoc.lookupA_insertA_cases _ _ _ _ _ h with ⟨hk, hpr⟩ | hold
            · subst hk
              rw [hpr]
              simp only [Pair.push_order]
              exact ih rq.coins pr0 hl
            · exact ih k pr hold
        · simp only [OptionsMarket.create_order] at h
          exact ih k pr h
  · intro m hm
    induction hm with
    | init =>
        intro k pr h
        simp [FuturesMarket.default, Assoc.lookupA] at h
    | add_pair m c p hm ih =>
        intro k pr h
        simp only [FuturesMarket.add_pair] at h
        rcases Assoc.lookupA_insertA_cases _ _ _ _ _ h with ⟨hk, hpr⟩ | hold
        · subst hk
          rw [hpr]
        · exact ih k pr hold
    | create_order m r hm ih =>
        intro k pr h
        rcases r with rq | rq
        · simp only [FuturesMarket.create_order] at h
          exact ih k pr h
        · rcases hl : m.pairs_map.lookupA rq.coins with _ | pr0
          · simp only [FuturesMarket.create_order, hl] at h
            exact ih k pr h
          · simp only [FuturesMarket.create_order, hl] at h
            rcases Assoc.lookupA_insertA_cases _ _ _ _ _ h with ⟨hk, hpr⟩ | hold
            · subst hk
              rw [hpr]
              simp only [Pair.push_order]
              exact ih rq.coins pr0 hl
            · exact ih k pr hold

/-- C9 witness: the invariant applied to a concretely reached one-pair
options market and its registered key. -/
theorem C9_pair_map_key_invariant_witness :
    (⟨(("B"), ("U")), 7, []⟩ : Pair OptionsOrder).coins = (("B"), ("U")) :=
  C9_pair_map_key_invariant.1 (OptionsMarket.default.add_pair (("B"), ("U")) 7)
    (OptionsMarket.Reachable.add_pair _ _ _ OptionsMarket.Reachable.init)
    (("B"), ("U")) ⟨(("B"), ("U")), 7, []⟩ (by decide)

/-- C10 counterexample: with premium 0 and the order's filled quantity
already at the maximum representable value, the writer successfully fulfills
their own order for quantity 1, yet the unchecked wrapping addition of the
source's `fulfill` leaves the filled quantity at 0 instead of increasing it
by the fulfilled quantity. -/
theorem C10_counterexample :
    (c10_engine.fulfill_order c10_order ("A") 1).1 = .ok () ∧
    c10_order.get_writer = ("A") ∧
    c10_order.filledOf = U128_MAX ∧
    ((c10_engine.fulfill_order c10_order ("A") 1).2.2).filledOf = 0 ∧
    ((c10_engine.fulfill_order c10_order ("A") 1).2.2).filledOf ≠
      c10_order.filledOf + 1 :=
  ⟨rfl, rfl, rfl, by decide, by decide⟩

/-- C10 (amended): for every successful `fulfill_order` call in which the
fulfilling user is the order's writer and the filled-quantity addition does
not exceed the maximum representable value, that user's balance in the
payment coin is the same after the call as before it, while the order's
counter-party is set to that user and its filled quantity increases by the
fulfilled quantity. -/
theorem C10_self_fulfill_cancels (e : TradingEngine) (ord : DynOrder) (user : String)
    (q : Nat) (hw : user = ord.get_writer) (hq : ord.filledOf + q ≤ U128_MAX)
    (h : (e.fulfill_order ord user q).1 = .ok ()) :
    getBalance (e.fulfill_order ord user q).2.1 user ord.get_coins.2 =
      getBalance e user ord.get_coins.2 ∧
    ((e.fulfill_order ord user q).2.2).buyerOf = user ∧
    ((e.fulfill_order ord user q).2.2).filledOf = ord.filledOf + q := by
  subst hw
  obtain ⟨p, hmul, hsubok, haddok, hstate, horder⟩ :=
    TradingEngine.fulfill_order_ok_decomp e ord ord.get_writer q h
  obtain ⟨ub, bal, hu, hc, hlep, he1⟩ :=
    TradingEngine.subtract_balance_ok_decomp e ord.get_writer ord.get_coins.2 p hsubok
  obtain ⟨hle2, he2⟩ :=
    TradingEngine.add_balance_ok_decomp _ ord.get_writer ord.get_coins.2 p haddok
  have hlw : Assoc.lookupA
      ((e.subtract_balance ord.get_writer ord.get_coins.2 p).2).balances
      ord.get_writer = some (ub.insertA ord.get_coins.2 (bal - p)) := by
    rw [he1]
    exact Assoc.lookupA_insertA_self _ _ _
  have hchain : (((Assoc.lookupA
      ((e.subtract_balance ord.get_writer ord.get_coins.2 p).2).balances
      ord.get_writer).getD []).lookupA ord.get_coins.2).getD 0 = bal - p := by
    rw [hlw]
    simp [Assoc.lookupA_insertA_self]
  have harith : bal - p + p = bal := Nat.sub_add_cancel hlep
  have hpre : getBalance e ord.get_writer ord.get_coins.2 = some bal := by
    simp [getBalance, hu, hc]
  refine ⟨?_, ?_, ?_⟩
  · rw [hstate, he2, hchain, harith, getBalance_writeBalance, hpre]
  · rw [horder]
    cases ord with
    | options o => simp [DynOrder.fulfill, DynOrder.buyerOf]
    | futures o => simp [DynOrder.fulfill, DynOrder.buyerOf]
  · have hlt : ord.filledOf + q < 2 ^ 128 := Nat.lt_of_le_of_lt hq (by decide)
    rw [horder]
    cases ord with
    | options o =>
        have hlt2 : o.quantity + q < 2 ^ 128 := by
          simpa [DynOrder.filledOf] using hlt
        simp only [DynOrder.fulfill, DynOrder.filledOf]
        exact Nat.mod_eq_of_lt hlt2
    | futures o =>
        have hlt2 : o.quantity + q < 2 ^ 128 := by
          simpa [DynOrder.filledOf] using hlt
        simp only [DynOrder.fulfill, DynOrder.filledOf]
        exact Nat.mod_eq_of_lt hlt2

/-- C10 witness: writer A fulfills A's own price-1 order for quantity 10 on
a 100-USD balance; the balance is unchanged while the order records A as
counter-party with filled quantity 10. -/
theorem C10_self_fulfill_cancels_witness :
    getBalance (c3_engine.fulfill_order c3_order ("A") 10).2.1 ("A")
        c3_order.get_coins.2 =
      getBalance c3_engine ("A") c3_order.get_coins.2 ∧
    ((c3_engine.fulfill_order c3_order ("A") 10).2.2).buyerOf = ("A") ∧
    ((c3_engine.fulfill_order c3_order ("A") 10).2.2).filledOf =
      c3_order.filledOf + 10 :=
  C10_self_fulfill_cancels c3_engine c3_order ("A") 10 rfl (by decide) rfl

end SimpleTradingEngine
